import Mathlib

/-
Verification of the fresh-ts FreshRSS client library.

The development embeds the item synchronization engine and the
authentication logic of the repository:
  * src/src/api/client.ts      (FreshFetchClient)
  * src/src/api/fever-client.ts (FeverClient)
  * src/src/api/greader-client.ts (GreaderClient)
FeverClient and FreshFetchClient share the same bodies for setMark,
getItemsFromIds and getItemsFromDates; each of those is embedded once.
The HTTP transport is modelled as an oracle: for cursor pagination, the
script of batches the server answers with, in order; for id batching, a
function from the requested chunk to the returned items.  Every run
records the list of data calls it issued, so call counts and request
parameters are provable.
-/

namespace FreshTs

/-- Item value type, from src/src/utils/items.ts and the Fever.Item
interface in the types module.  Ids are JS numbers used as integers. -/
structure Item where
  id : Int
  feed_id : Int
  title : String
  author : String
  html : String
  url : String
  is_saved : Bool
  is_read : Bool
  created_on_time : Int
deriving Repr, DecidableEq

/-- Error taxonomy.  The code raises APIError, AuthenticationError and
generic Error values; the constructor chosen here records which kind of
failure the raise site is (validation check, API contract, login,
internal consistency check, unsupported capability), carrying the
message string of the raise site (template-interpolated counts in the
code are elided from the static message). -/
inductive ClientError where
  | validation (msg : String)
  | api (msg : String)
  | authentication (msg : String)
  | consistency (msg : String)
  | capability (msg : String)
deriving Repr, DecidableEq

/-- Stable insertion of an item into a list sorted ascending by id;
together with sortById this models the JS stable
allItems.sort((a, b) => a.id - b.id). -/
def insertById (x : Item) : List Item → List Item
  | [] => [x]
  | y :: ys => if x.id ≤ y.id then x :: y :: ys else y :: insertById x ys

/-- Sort a list of items ascending by id (stable, as JS Array.sort). -/
def sortById : List Item → List Item
  | [] => []
  | x :: xs => insertById x (sortById xs)

/-- Fuelled splitting into consecutive chunks of at most 50 elements,
in input order; models the loop
for (let i = 0; i < total; i += 50) batch = ids.slice(i, i + 50)
of getItemsFromIds. -/
def chunksAux : Nat → List Int → List (List Int)
  | _, [] => []
  | 0, _ :: _ => []
  | fuel + 1, x :: xs => ((x :: xs).take 50) :: chunksAux fuel ((x :: xs).drop 50)

/-- Consecutive chunks of at most 50 elements of the list, in input
order; the fuel argument of chunksAux is only a termination bound and
never runs out when started at the length of the list. -/
def chunks50 (l : List Int) : List (List Int) :=
  chunksAux l.length l

/-- Result of a getItemsFromIds run: the chunk requested by each data
call, in order, and the returned items or the raised error. -/
structure IdsRun where
  calls : List (List Int)
  result : Except ClientError (List Item)
deriving Repr

/-- FeverClient.getItemsFromIds / FreshFetchClient.getItemsFromIds.
The transport is the function server from a requested chunk to the
items the server answers with.  Empty input returns [] with no call;
otherwise the ids are processed in batches of 50, the accumulated item
count must equal the requested count (else APIError), and the result is
sorted ascending by id. -/
def getItemsFromIds (ids : List Int) (server : List Int → List Item) : IdsRun :=
  if ids = [] then { calls := [], result := .ok [] }
  else
    let batches := chunks50 ids
    let allItems := (batches.map server).flatten
    if allItems.length ≠ ids.length then
      { calls := batches
        result := .error (.api "API returned a different number of items than requested. Some items may not exist or may not be accessible.") }
    else
      { calls := batches, result := .ok (sortById allItems) }

/-- Loop state of the getItemsFromDates pagination: the accumulated
result list, the insertion-ordered list behind the Set of seen ids, and
the current cursor (currentSinceId). -/
structure LoopState where
  allItems : List Item
  seen : List Int
  cursor : Int
deriving Repr, DecidableEq

/-- Body of the for (const item of itemsBatch) loop of
getItemsFromDates: given the remaining batch, the seen ids and the
running highestId, returns the accepted items (newItems, in push
order), the updated seen ids, and the final highestId.  An item is
skipped when its id was already seen or exceeds untilId; a skipped item
does not touch highestId. -/
def procItems (untilId : Int) : List Item → List Int → Int → List Item × List Int × Int
  | [], seen, highestId => ([], seen, highestId)
  | item :: rest, seen, highestId =>
    if seen.contains item.id then procItems untilId rest seen highestId
    else if item.id > untilId then procItems untilId rest seen highestId
    else
      let r := procItems untilId rest (seen ++ [item.id])
                 (if item.id > highestId then item.id else highestId)
      (item :: r.1, r.2)

/-- One full batch processed against a loop state: newItems appended to
allItems, seen and cursor updated (cursor = highestId of the batch run,
which starts from the previous cursor). -/
def stepBatch (untilId : Int) (st : LoopState) (batch : List Item) : LoopState :=
  let r := procItems untilId batch st.seen st.cursor
  ⟨st.allItems ++ r.1, r.2.1, r.2.2⟩

/-- Ids of the items of a batch that the for loop of getItemsFromDates
accepts, in order: an id is accepted when it was not seen before (in
the seen ids or earlier in the batch) and does not exceed untilId. -/
def acceptedIds (untilId : Int) : List Item → List Int → List Int
  | [], _ => []
  | item :: rest, seen =>
    if seen.contains item.id || item.id > untilId then acceptedIds untilId rest seen
    else item.id :: acceptedIds untilId rest (seen ++ [item.id])

/-- Internal invariant of the pagination loop state: the seen ids are
exactly the ids of the accumulated items, without duplicates. -/
def Inv (st : LoopState) : Prop :=
  st.seen = st.allItems.map (fun x => x.id) ∧ st.seen.Nodup

/-- Result of a getItemsFromDates run: the since_id of each data call
issued, in order, and the returned items or the raised error. -/
structure DatesRun where
  calls : List Int
  result : Except ClientError (List Item)
deriving Repr

/-- The while (true) pagination loop of getItemsFromDates.  The script
lists the batches the server answers successive calls with; when the
script is exhausted the server answers with an empty batch.  Each
iteration issues one call (recording its cursor), breaks on an empty
batch, processes the batch, breaks after a batch shorter than 50,
otherwise advances the cursor to highestId, checks the
length-equals-seen-count invariant (raising the consistency error on
violation) and continues. -/
def datesLoop (untilId : Int) : List (List Item) → LoopState → DatesRun
  | [], st => { calls := [st.cursor], result := .ok (sortById st.allItems) }
  | batch :: rest, st =>
    if batch.length = 0 then
      { calls := [st.cursor], result := .ok (sortById st.allItems) }
    else if batch.length < 50 then
      { calls := [st.cursor]
        result := .ok (sortById (stepBatch untilId st batch).allItems) }
    else if (stepBatch untilId st batch).allItems.length ≠ (stepBatch untilId st batch).seen.length then
      { calls := [st.cursor]
        result := .error (.consistency "Duplicate item IDs detected in results! This should never happen.") }
    else
      { calls := st.cursor :: (datesLoop untilId rest (stepBatch untilId st batch)).calls
        result := (datesLoop untilId rest (stepBatch untilId st batch)).result }

/-- FeverClient.getItemsFromDates / FreshFetchClient.getItemsFromDates
after input normalization: sinceId and untilId are the normalized
integer cursors (microsecond ids).  The precondition sinceId < untilId
is checked before any call; on violation the run has zero calls and the
validation error. -/
def getItemsFromDates (sinceId untilId : Int) (script : List (List Item)) : DatesRun :=
  if sinceId < untilId then
    datesLoop untilId script ⟨[], [], sinceId⟩
  else
    { calls := [], result := .error (.validation "The \x27since\x27 date must be earlier than the \x27until\x27 date") }

/-- Mark actions accepted by setMark (type MarkAction in the types
module). -/
inductive MarkAction where
  | read
  | saved
  | unsaved
  | unread
deriving Repr, DecidableEq

/-- Wire name of a mark action, as sent in the as parameter. -/
def MarkAction.toParam : MarkAction → String
  | .read => "read"
  | .saved => "saved"
  | .unsaved => "unsaved"
  | .unread => "unread"

/-- A decoded JSON object, modelled as its key-value pairs. -/
abbrev APIResponse := List (String × String)

/-- Key presence test on a response object (the JS in operator). -/
def hasKey (r : APIResponse) (k : String) : Bool :=
  r.any (fun p => p.1 = k)

/-- Result of a setMark run: the (action, id) parameter pair of each
data call issued, the console.error warnings logged, and the returned
raw response or the raised error. -/
structure SetMarkRun where
  calls : List (String × Int)
  warnings : List String
  outcome : Except ClientError APIResponse
deriving Repr

/-- FeverClient.setMark / FreshFetchClient.setMark.  The response
argument is what the transport would answer the single data call with.
Action unread raises the capability error before any call; the other
three actions issue one call with the action and id as parameters,
log a non-fatal warning when the expected id-list field is absent, and
return the raw response unchanged. -/
def setMark (action : MarkAction) (id : Int) (response : APIResponse) : SetMarkRun :=
  match action with
  | .unread =>
    { calls := []
      warnings := []
      outcome := .error (.capability "The Fever API does not support marking as \x27unread\x27") }
  | a =>
    let warnings :=
      if a = .read then
        if hasKey response "read_item_ids" then []
        else ["The response to setMark does not contain \x27read_item_ids\x27"]
      else
        if hasKey response "saved_item_ids" then []
        else ["The response to setMark does not contain \x27saved_item_ids\x27"]
    { calls := [(a.toParam, id)], warnings := warnings, outcome := .ok response }

/-- Word character test of the regex class \w. -/
def isWordChar (c : Char) : Bool :=
  c.isAlphanum || c = '_'

/-- Split a character list at its first equals sign, or none when no
equals sign occurs. -/
def splitFirstEq : List Char → Option (List Char × List Char)
  | [] => none
  | c :: cs =>
    if c = '=' then some ([], cs)
    else (splitFirstEq cs).map (fun p => (c :: p.1, p.2))

/-- One line matched against the GreaderClient.parseAuthResponse regex
(one or more word characters, an equals sign, the rest of the line):
returns the key-value pair, or none when the line does not match. -/
def parseAuthLine (line : List Char) : Option (String × String) :=
  match splitFirstEq line with
  | none => none
  | some (k, v) =>
    if k ≠ [] && k.all isWordChar then some (String.mk k, String.mk v)
    else none

/-- Split a character list into its newline-separated lines (the
multiline flag of the regex matches line by line). -/
def splitLines : List Char → List (List Char)
  | [] => [[]]
  | c :: cs =>
    if c = '\n' then [] :: splitLines cs
    else
      match splitLines cs with
      | [] => [[c]]
      | l :: ls => (c :: l) :: ls

/-- GreaderClient.parseAuthResponse: parse the newline-delimited
KEY=VALUE login response body into key-value pairs, later occurrences
of a key overwriting earlier ones (result[key] = value in a loop over
the matches). -/
def parseAuthResponse (responseText : String) : List (String × String) :=
  (splitLines responseText.data).foldl
    (fun acc line =>
      match parseAuthLine line with
      | some kv => acc.filter (fun p => p.1 ≠ kv.1) ++ [kv]
      | none => acc)
    []

/-- Last bound value of a key in the parsed login response (JS object
member lookup after the overwriting loop). -/
def lookupKey (parsed : List (String × String)) (k : String) : Option String :=
  (parsed.find? (fun p => p.1 = k)).map (fun p => p.2)

/-- JS falsiness of an optional string: undefined, null and the empty
string are falsy. -/
def falsy (o : Option String) : Bool :=
  o.getD "" = ""

/-- Session fields of a GreaderClient, as declared in the class:
sessionToken, userAuth, sid, each possibly unset. -/
structure GreaderState where
  sessionToken : Option String
  userAuth : Option String
  sid : Option String
deriving Repr, DecidableEq

/-- GreaderClient.authenticate, as run by GreaderClient.create on the
freshly constructed (all fields unset) client.  loginResponse is the
body the ClientLogin call answers with (none models a null body, which
the code replaces by the empty string); tokenResponse is what the token
call answers with.  Success yields the session field assignment the
sequence ends in; each failed check raises AuthenticationError, so no
state escapes a failed run. -/
def GreaderClient.authenticate (loginResponse : Option String)
    (tokenResponse : Option String) : Except ClientError GreaderState :=
  let parsed := parseAuthResponse (loginResponse.getD "")
  let auth := lookupKey parsed "Auth"
  let sid := lookupKey parsed "SID"
  if falsy auth then
    .error (.authentication "Failed to authenticate with FreshRSS API")
  else if falsy sid then
    .error (.authentication "Failed to authenticate with FreshRSS API: Missing SID")
  else if falsy tokenResponse then
    .error (.authentication "Failed to retrieve session token from FreshRSS API")
  else
    .ok { sessionToken := tokenResponse, userAuth := auth, sid := sid }

/-- GreaderClient.create: constructs the client and awaits authenticate
before returning it, so the returned client carries the state
authenticate ended in, and a failed authenticate yields no client. -/
def GreaderClient.create (loginResponse : Option String)
    (tokenResponse : Option String) : Except ClientError GreaderState :=
  GreaderClient.authenticate loginResponse tokenResponse

/-- Item with a given id and inert payload fields, used for concrete
test inputs. -/
def mkItem (n : Int) : Item :=
  ⟨n, 0, "", "", "", "", false, false, 0⟩

/-- Full page of 50 items with ids 1 to 50. -/
def page50 : List Item :=
  (List.range 50).map (fun n => mkItem (n + 1))

/-- Page of exactly 50 items of which the last five have ids above 100:
ids 1 to 45 followed by ids 101 to 105. -/
def mixedPage : List Item :=
  ((List.range 45).map (fun n => mkItem (n + 1)))
    ++ ((List.range 5).map (fun n => mkItem (101 + n)))

/-! Lemmas about the stable sort by id. -/

theorem insertById_perm (x : Item) (l : List Item) :
    (insertById x l).Perm (x :: l) := by
  induction l with
  | nil => simp [insertById]
  | cons y ys ih =>
    by_cases h : x.id ≤ y.id
    · simp [insertById, h]
    · simp only [insertById, if_neg h]
      exact (ih.cons y).trans (List.Perm.swap x y ys)

theorem sortById_perm (l : List Item) : (sortById l).Perm l := by
  induction l with
  | nil => simp [sortById]
  | cons x xs ih =>
    exact (insertById_perm x (sortById xs)).trans (ih.cons x)

theorem sortById_length (l : List Item) : (sortById l).length = l.length :=
  (sortById_perm l).length_eq

theorem mem_sortById {a : Item} {l : List Item} : a ∈ sortById l ↔ a ∈ l :=
  (sortById_perm l).mem_iff

theorem insertById_sorted (x : Item) (l : List Item)
    (h : List.Pairwise (fun a b => a.id ≤ b.id) l) :
    List.Pairwise (fun a b => a.id ≤ b.id) (insertById x l) := by
  induction l with
  | nil => simp [insertById]
  | cons y ys ih =>
    rw [List.pairwise_cons] at h
    by_cases hxy : x.id ≤ y.id
    · simp only [insertById, if_pos hxy, List.pairwise_cons, List.forall_mem_cons]
      exact ⟨⟨hxy, fun z hz => le_trans hxy (h.1 z hz)⟩, h⟩
    · simp only [insertById, if_neg hxy, List.pairwise_cons]
      refine ⟨?_, ih h.2⟩
      intro z hz
      have hz2 : z ∈ x :: ys := (insertById_perm x ys).subset hz
      rw [List.mem_cons] at hz2
      rcases hz2 with rfl | hz2
      · omega
      · exact h.1 z hz2

theorem sortById_sorted (l : List Item) :
    List.Pairwise (fun a b => a.id ≤ b.id) (sortById l) := by
  induction l with
  | nil => simp [sortById]
  | cons x xs ih => exact insertById_sorted x (sortById xs) ih

theorem sortById_map_id_nodup {l : List Item}
    (h : (l.map (fun x => x.id)).Nodup) :
    ((sortById l).map (fun x => x.id)).Nodup :=
  (((sortById_perm l).map (fun x => x.id)).nodup_iff).mpr h

/-! Lemmas about the batching of id lists into chunks of 50. -/

theorem chunksAux_congr (f1 : Nat) : ∀ (f2 : Nat) (l : List Int),
    l.length ≤ f1 → l.length ≤ f2 → chunksAux f1 l = chunksAux f2 l := by
  induction f1 with
  | zero =>
    intro f2 l h1 _
    have hl : l = [] := List.eq_nil_of_length_eq_zero (Nat.le_zero.mp h1)
    subst hl
    cases f2 <;> rfl
  | succ f ih =>
    intro f2 l h1 h2
    cases l with
    | nil => cases f2 <;> rfl
    | cons x xs =>
      cases f2 with
      | zero => simp at h2
      | succ g =>
        simp only [chunksAux]
        congr 1
        apply ih
        · simp only [List.length_drop, List.length_cons] at *
          omega
        · simp only [List.length_drop, List.length_cons] at *
          omega

theorem chunks50_nil : chunks50 [] = [] := rfl

theorem chunks50_cons (x : Int) (xs : List Int) :
    chunks50 (x :: xs) = (x :: xs).take 50 :: chunks50 ((x :: xs).drop 50) := by
  show chunksAux (xs.length + 1) (x :: xs) = _
  simp only [chunksAux]
  congr 1
  apply chunksAux_congr
  · simp only [List.length_drop, List.length_cons]
    omega
  · exact le_rfl

theorem chunksAux_flatten : ∀ (f : Nat) (l : List Int), l.length ≤ f →
    (chunksAux f l).flatten = l := by
  intro f
  induction f with
  | zero =>
    intro l h1
    have hl : l = [] := List.eq_nil_of_length_eq_zero (Nat.le_zero.mp h1)
    subst hl; rfl
  | succ f ih =>
    intro l h1
    cases l with
    | nil => rfl
    | cons x xs =>
      simp only [chunksAux, List.flatten_cons]
      rw [ih]
      · exact List.take_append_drop 50 (x :: xs)
      · simp only [List.length_drop, List.length_cons] at *
        omega

theorem chunks50_flatten (l : List Int) : (chunks50 l).flatten = l :=
  chunksAux_flatten l.length l le_rfl

theorem chunksAux_length : ∀ (f : Nat) (l : List Int), l.length ≤ f →
    (chunksAux f l).length = (l.length + 49) / 50 := by
  intro f
  induction f with
  | zero =>
    intro l h1
    have hl : l = [] := List.eq_nil_of_length_eq_zero (Nat.le_zero.mp h1)
    subst hl; rfl
  | succ f ih =>
    intro l h1
    cases l with
    | nil => rfl
    | cons x xs =>
      simp only [chunksAux, List.length_cons]
      rw [ih]
      · simp only [List.length_drop, List.length_cons]
        omega
      · simp only [List.length_drop, List.length_cons] at *
        omega

theorem chunks50_length (l : List Int) :
    (chunks50 l).length = (l.length + 49) / 50 :=
  chunksAux_length l.length l le_rfl

theorem chunksAux_mem_length_le : ∀ (f : Nat) (l : List Int) (c : List Int),
    c ∈ chunksAux f l → c.length ≤ 50 := by
  intro f
  induction f with
  | zero =>
    intro l c hc
    cases l <;> simp [chunksAux] at hc
  | succ f ih =>
    intro l c hc
    cases l with
    | nil => simp [chunksAux] at hc
    | cons x xs =>
      simp only [chunksAux, List.mem_cons] at hc
      rcases hc with hc | hc
      · subst hc
        simp [List.length_take]
      · exact ih _ _ hc

theorem chunks50_mem_length_le (l c : List Int) (hc : c ∈ chunks50 l) :
    c.length ≤ 50 :=
  chunksAux_mem_length_le l.length l c hc

theorem chunksAux_dropLast_length : ∀ (f : Nat) (l : List Int), l.length ≤ f →
    ∀ c ∈ (chunksAux f l).dropLast, c.length = 50 := by
  intro f
  induction f with
  | zero =>
    intro l h1 c hc
    have hl : l = [] := List.eq_nil_of_length_eq_zero (Nat.le_zero.mp h1)
    subst hl; simp [chunksAux] at hc
  | succ f ih =>
    intro l h1 c hc
    cases l with
    | nil => simp [chunksAux] at hc
    | cons x xs =>
      simp only [chunksAux] at hc
      cases hrest : chunksAux f ((x :: xs).drop 50) with
      | nil => rw [hrest] at hc; simp at hc
      | cons r rs =>
        rw [hrest] at hc
        have hlong : 50 < (x :: xs).length := by
          by_contra hle
          have hdrop : (x :: xs).drop 50 = [] :=
            List.drop_eq_nil_of_le (by omega)
          rw [hdrop] at hrest
          cases f <;> simp [chunksAux] at hrest
        simp only [List.dropLast_cons₂, List.mem_cons] at hc
        rcases hc with hc | hc
        · subst hc
          simp only [List.length_take]
          omega
        · have := ih ((x :: xs).drop 50) (by
            simp only [List.length_drop, List.length_cons] at *
            omega)
          rw [hrest] at this
          exact this c hc

theorem chunks50_dropLast_length (l : List Int) :
    ∀ c ∈ (chunks50 l).dropLast, c.length = 50 :=
  chunksAux_dropLast_length l.length l le_rfl

/-! Lemmas about the batch-processing loop of getItemsFromDates. -/

theorem if_gt_eq_max (a b : Int) : (if b > a then b else a) = max a b := by
  by_cases h : b > a <;> by_cases h2 : a ≤ b <;>
    simp [max_def, h, h2] <;> omega

theorem procItems_seen (u : Int) : ∀ (b : List Item) (seen : List Int) (hc : Int),
    (procItems u b seen hc).2.1
      = seen ++ ((procItems u b seen hc).1.map (fun x => x.id)) := by
  intro b
  induction b with
  | nil => intro seen hc; simp [procItems]
  | cons it rest ih =>
    intro seen hc
    by_cases h1 : it.id ∈ seen
    · simp [procItems, h1, ih]
    · by_cases h2 : u < it.id
      · simp [procItems, h1, h2, ih]
      · simp [procItems, h1, h2, ih]

theorem procItems_ids (u : Int) : ∀ (b : List Item) (seen : List Int) (hc : Int),
    (procItems u b seen hc).1.map (fun x => x.id) = acceptedIds u b seen := by
  intro b
  induction b with
  | nil => intro seen hc; simp [procItems, acceptedIds]
  | cons it rest ih =>
    intro seen hc
    by_cases h1 : it.id ∈ seen
    · simp [procItems, acceptedIds, h1, ih]
    · by_cases h2 : u < it.id
      · simp [procItems, acceptedIds, h1, h2, ih]
      · simp [procItems, acceptedIds, h1, h2, ih]

theorem procItems_cursor (u : Int) : ∀ (b : List Item) (seen : List Int) (hc : Int),
    (procItems u b seen hc).2.2 = (acceptedIds u b seen).foldl max hc := by
  intro b
  induction b with
  | nil => intro seen hc; simp [procItems, acceptedIds]
  | cons it rest ih =>
    intro seen hc
    by_cases h1 : it.id ∈ seen
    · simp [procItems, acceptedIds, h1, ih]
    · by_cases h2 : u < it.id
      · simp [procItems, acceptedIds, h1, h2, ih]
      · simp [procItems, acceptedIds, h1, h2, ih, if_gt_eq_max]

theorem procItems_nodup (u : Int) : ∀ (b : List Item) (seen : List Int) (hc : Int),
    seen.Nodup → (procItems u b seen hc).2.1.Nodup := by
  intro b
  induction b with
  | nil => intro seen hc h; simpa [procItems] using h
  | cons it rest ih =>
    intro seen hc h
    by_cases h1 : it.id ∈ seen
    · simpa [procItems, h1] using ih seen hc h
    · by_cases h2 : u < it.id
      · simpa [procItems, h1, h2] using ih seen hc h
      · have hnd : (seen ++ [it.id]).Nodup := by
          simp [List.nodup_append, h, h1]
        simpa [procItems, h1, h2] using
          ih (seen ++ [it.id]) (if it.id > hc then it.id else hc) hnd

theorem procItems_le (u : Int) : ∀ (b : List Item) (seen : List Int) (hc : Int),
    ∀ x ∈ (procItems u b seen hc).1, x.id ≤ u := by
  intro b
  induction b with
  | nil => intro seen hc x hx; simp [procItems] at hx
  | cons it rest ih =>
    intro seen hc x hx
    by_cases h1 : it.id ∈ seen
    · rw [show procItems u (it :: rest) seen hc = procItems u rest seen hc by
        simp [procItems, h1]] at hx
      exact ih seen hc x hx
    · by_cases h2 : u < it.id
      · rw [show procItems u (it :: rest) seen hc = procItems u rest seen hc by
          simp [procItems, h1, h2]] at hx
        exact ih seen hc x hx
      · rw [show procItems u (it :: rest) seen hc
            = (it :: (procItems u rest (seen ++ [it.id])
                (if it.id > hc then it.id else hc)).1,
               (procItems u rest (seen ++ [it.id])
                (if it.id > hc then it.id else hc)).2) by
          simp [procItems, h1, h2]] at hx
        rcases List.mem_cons.mp hx with rfl | hx
        · omega
        · exact ih _ _ x hx

theorem stepBatch_inv (u : Int) (st : LoopState) (b : List Item) (h : Inv st) :
    Inv (stepBatch u st b) := by
  rcases h with ⟨hseen, hnd⟩
  constructor
  · simp only [stepBatch]
    rw [procItems_seen, List.map_append, hseen]
  · exact procItems_nodup u b st.seen st.cursor hnd

theorem stepBatch_le (u : Int) (st : LoopState) (b : List Item)
    (h : ∀ x ∈ st.allItems, x.id ≤ u) :
    ∀ x ∈ (stepBatch u st b).allItems, x.id ≤ u := by
  intro x hx
  simp only [stepBatch, List.mem_append] at hx
  rcases hx with hx | hx
  · exact h x hx
  · exact procItems_le u b st.seen st.cursor x hx

theorem stepBatch_cursor (u : Int) (st : LoopState) (b : List Item) :
    (stepBatch u st b).cursor = (acceptedIds u b st.seen).foldl max st.cursor :=
  procItems_cursor u b st.seen st.cursor

theorem stepBatch_len (u : Int) (st : LoopState) (b : List Item) (h : Inv st) :
    (stepBatch u st b).allItems.length = (stepBatch u st b).seen.length := by
  have h2 := (stepBatch_inv u st b h).1
  rw [h2, List.length_map]

theorem Inv_init (c : Int) : Inv ⟨[], [], c⟩ :=
  ⟨rfl, List.nodup_nil⟩

theorem foldl_stepBatch_inv (u : Int) : ∀ (bs : List (List Item)) (st : LoopState),
    Inv st → Inv (bs.foldl (stepBatch u) st) := by
  intro bs
  induction bs with
  | nil => intro st h; exact h
  | cons b rest ih =>
    intro st h
    exact ih (stepBatch u st b) (stepBatch_inv u st b h)

theorem datesLoop_calls_head (u : Int) (script : List (List Item)) (st : LoopState) :
    ∃ t, (datesLoop u script st).calls = st.cursor :: t := by
  cases script with
  | nil => exact ⟨[], rfl⟩
  | cons b rest =>
    simp only [datesLoop]
    split
    · exact ⟨[], rfl⟩
    · split
      · exact ⟨[], rfl⟩
      · split
        · exact ⟨[], rfl⟩
        · exact ⟨_, rfl⟩

theorem datesLoop_run (u : Int) : ∀ (script : List (List Item)) (st : LoopState),
    Inv st → (∀ x ∈ st.allItems, x.id ≤ u) →
    (∀ msg, (datesLoop u script st).result ≠ .error (.consistency msg)) ∧
    (∀ l, (datesLoop u script st).result = .ok l →
      ((l.map (fun x => x.id)).Nodup ∧ ∀ x ∈ l, x.id ≤ u)) := by
  intro script
  induction script with
  | nil =>
    intro st hinv hle
    constructor
    · intro msg h
      simp [datesLoop] at h
    · intro l hl
      simp only [datesLoop, Except.ok.injEq] at hl
      subst hl
      refine ⟨sortById_map_id_nodup ?_, ?_⟩
      · rw [← hinv.1]
        exact hinv.2
      · intro x hx
        exact hle x (mem_sortById.mp hx)
  | cons b rest ih =>
    intro st hinv hle
    have hinv2 := stepBatch_inv u st b hinv
    have hle2 := stepBatch_le u st b hle
    by_cases h0 : b.length = 0
    · constructor
      · intro msg h
        simp [datesLoop, h0] at h
      · intro l hl
        simp only [datesLoop, if_pos h0, Except.ok.injEq] at hl
        subst hl
        refine ⟨sortById_map_id_nodup ?_, ?_⟩
        · rw [← hinv.1]
          exact hinv.2
        · intro x hx
          exact hle x (mem_sortById.mp hx)
    · by_cases h50 : b.length < 50
      · constructor
        · intro msg h
          simp [datesLoop, h0, h50] at h
        · intro l hl
          simp only [datesLoop, if_neg h0, if_pos h50, Except.ok.injEq] at hl
          subst hl
          refine ⟨sortById_map_id_nodup ?_, ?_⟩
          · rw [← hinv2.1]
            exact hinv2.2
          · intro x hx
            exact hle2 x (mem_sortById.mp hx)
      · have hck := stepBatch_len u st b hinv
        have hres : datesLoop u (b :: rest) st
            = { calls := st.cursor :: (datesLoop u rest (stepBatch u st b)).calls
                result := (datesLoop u rest (stepBatch u st b)).result } := by
          simp [datesLoop, h0, h50, hck]
        rw [hres]
        exact ih (stepBatch u st b) hinv2 hle2

theorem datesLoop_stop (u : Int) : ∀ (pre : List (List Item)) (b : List Item)
    (rest : List (List Item)) (st : LoopState), Inv st →
    (∀ p ∈ pre, p.length = 50) → b.length < 50 →
    (datesLoop u (pre ++ b :: rest) st).calls.length = pre.length + 1 := by
  intro pre
  induction pre with
  | nil =>
    intro b rest st _ _ hb
    by_cases h0 : b.length = 0
    · simp [datesLoop, h0]
    · simp [datesLoop, h0, hb]
  | cons p pre ih =>
    intro b rest st hinv hpre hb
    have hp : p.length = 50 := hpre p (List.mem_cons_self p pre)
    have h0 : ¬ p.length = 0 := by omega
    have h50 : ¬ p.length < 50 := by omega
    have hck := stepBatch_len u st p hinv
    have hres : datesLoop u ((p :: pre) ++ b :: rest) st
        = { calls := st.cursor :: (datesLoop u (pre ++ b :: rest) (stepBatch u st p)).calls
            result := (datesLoop u (pre ++ b :: rest) (stepBatch u st p)).result } := by
      simp [datesLoop, h0, h50, hck]
    rw [hres, List.length_cons, ih b rest (stepBatch u st p) (stepBatch_inv u st p hinv)
      (fun q hq => hpre q (List.mem_cons_of_mem p hq)) hb, List.length_cons]

theorem getItemsFromIds_eq (ids : List Int) (server : List Int → List Item)
    (hne : ids ≠ []) :
    getItemsFromIds ids server =
      if ((chunks50 ids).map server).flatten.length ≠ ids.length then
        { calls := chunks50 ids
          result := .error (.api "API returned a different number of items than requested. Some items may not exist or may not be accessible.") }
      else
        { calls := chunks50 ids
          result := .ok (sortById ((chunks50 ids).map server).flatten) } := by
  unfold getItemsFromIds
  rw [if_neg hne]

theorem not_falsy_isSome {o : Option String} (h : falsy o = false) : o.isSome := by
  cases o with
  | none => simp [falsy] at h
  | some s => rfl

/-! Claim theorems. -/

/-- C5: for every pair of inputs whose normalized cursor values satisfy
since greater than or equal to until, getItemsFromDates raises the
validation error synchronously and issues zero data calls, whatever the
server would have answered. -/
theorem claim_C5_validation_before_any_call (sinceId untilId : Int)
    (script : List (List Item)) (h : untilId ≤ sinceId) :
    (getItemsFromDates sinceId untilId script).calls = []
    ∧ (getItemsFromDates sinceId untilId script).result
        = .error (.validation "The \x27since\x27 date must be earlier than the \x27until\x27 date") := by
  have hnot : ¬ sinceId < untilId := by omega
  simp [getItemsFromDates, hnot]

/-- Witness for C5: cursors 5 and 5 produce zero calls and the
validation error. -/
theorem claim_C5_witness :
    (getItemsFromDates 5 5 [[mkItem 1]]).calls = []
    ∧ (getItemsFromDates 5 5 [[mkItem 1]]).result
        = .error (.validation "The \x27since\x27 date must be earlier than the \x27until\x27 date") :=
  claim_C5_validation_before_any_call 5 5 [[mkItem 1]] (by decide)

/-- C9: setMark with action unread issues no data call and raises the
capability error; each of the three supported actions issues exactly
one data call carrying the action and id, and returns the raw response
unchanged, for every response shape (in particular one missing the
expected id-list field). -/
theorem claim_C9_setMark_actions (id : Int) (resp : APIResponse) :
    ((setMark .unread id resp).calls = []
      ∧ (setMark .unread id resp).outcome
          = .error (.capability "The Fever API does not support marking as \x27unread\x27"))
    ∧ (∀ a : MarkAction, a ≠ .unread →
        (setMark a id resp).calls = [(a.toParam, id)]
        ∧ (setMark a id resp).outcome = .ok resp) := by
  refine ⟨⟨rfl, rfl⟩, ?_⟩
  intro a ha
  cases a with
  | read => exact ⟨rfl, rfl⟩
  | saved => exact ⟨rfl, rfl⟩
  | unsaved => exact ⟨rfl, rfl⟩
  | unread => exact absurd rfl ha

/-- Witness for C9: action read on an empty response object (the
expected field absent) still issues one call and returns the raw
response. -/
theorem claim_C9_witness :
    ((setMark .unread 7 []).calls = []
      ∧ (setMark .unread 7 []).outcome
          = .error (.capability "The Fever API does not support marking as \x27unread\x27"))
    ∧ ((setMark .read 7 []).calls = [("read", 7)]
      ∧ (setMark .read 7 []).outcome = .ok []) :=
  ⟨(claim_C9_setMark_actions 7 []).1,
   (claim_C9_setMark_actions 7 []).2 .read (by decide)⟩

/-- C7: a constructed client (the result of GreaderClient.create, which
awaits the login sequence before returning) either fails with no state
at all or carries all three session fields set, in one transition, to
the values of that single login sequence; no state with only some of
the three fields set is observable. -/
theorem claim_C7_atomic_session (login token : Option String) (st : GreaderState)
    (h : GreaderClient.create login token = .ok st) :
    st.userAuth.isSome ∧ st.sid.isSome ∧ st.sessionToken.isSome
    ∧ st.userAuth = lookupKey (parseAuthResponse (login.getD "")) "Auth"
    ∧ st.sid = lookupKey (parseAuthResponse (login.getD "")) "SID"
    ∧ st.sessionToken = token := by
  simp only [GreaderClient.create, GreaderClient.authenticate] at h
  by_cases h1 : falsy (lookupKey (parseAuthResponse (login.getD "")) "Auth")
  · simp [h1] at h
  · by_cases h2 : falsy (lookupKey (parseAuthResponse (login.getD "")) "SID")
    · simp [h1, h2] at h
    · by_cases h3 : falsy token
      · simp [h1, h2, h3] at h
      · simp only [h1, h2, h3, Bool.false_eq_true, if_false, Except.ok.injEq] at h
        subst h
        rw [Bool.not_eq_true] at h1 h2 h3
        exact ⟨not_falsy_isSome h1, not_falsy_isSome h2, not_falsy_isSome h3,
          rfl, rfl, rfl⟩

/-- Witness for C7: a login response carrying SID and Auth and a
non-empty token response yield a client with all three fields set. -/
theorem claim_C7_witness :
    GreaderClient.create (some "SID=s1\nLSID=l1\nAuth=a1") (some "tok")
        = .ok ⟨some "tok", some "a1", some "s1"⟩
    ∧ ((some "a1" : Option String).isSome
      ∧ (some "s1" : Option String).isSome
      ∧ (some "tok" : Option String).isSome) := by
  have h : GreaderClient.create (some "SID=s1\nLSID=l1\nAuth=a1") (some "tok")
      = .ok ⟨some "tok", some "a1", some "s1"⟩ := by rfl
  have h2 := claim_C7_atomic_session (some "SID=s1\nLSID=l1\nAuth=a1") (some "tok")
    ⟨some "tok", some "a1", some "s1"⟩ h
  exact ⟨h, h2.1, h2.2.1, h2.2.2.1⟩

/-- C8: during the login sequence, a missing or empty Auth value raises
AuthenticationError; Auth present but SID missing or empty raises
AuthenticationError with a distinct message but the same error kind;
Auth and SID present but a missing or empty token response raises
AuthenticationError at the token stage. -/
theorem claim_C8_auth_error_stages (login token : Option String) :
    (falsy (lookupKey (parseAuthResponse (login.getD "")) "Auth") = true →
      GreaderClient.authenticate login token
        = .error (.authentication "Failed to authenticate with FreshRSS API"))
    ∧ (falsy (lookupKey (parseAuthResponse (login.getD "")) "Auth") = false →
       falsy (lookupKey (parseAuthResponse (login.getD "")) "SID") = true →
      GreaderClient.authenticate login token
        = .error (.authentication "Failed to authenticate with FreshRSS API: Missing SID"))
    ∧ ("Failed to authenticate with FreshRSS API"
        ≠ "Failed to authenticate with FreshRSS API: Missing SID")
    ∧ (falsy (lookupKey (parseAuthResponse (login.getD "")) "Auth") = false →
       falsy (lookupKey (parseAuthResponse (login.getD "")) "SID") = false →
       falsy token = true →
      GreaderClient.authenticate login token
        = .error (.authentication "Failed to retrieve session token from FreshRSS API")) := by
  refine ⟨?_, ?_, ?_, ?_⟩
  · intro h1
    simp [GreaderClient.authenticate, h1]
  · intro h1 h2
    simp [GreaderClient.authenticate, h1, h2]
  · decide
  · intro h1 h2 h3
    simp [GreaderClient.authenticate, h1, h2, h3]

/-- Witness for C8: the three failing login shapes produce the three
authentication errors. -/
theorem claim_C8_witness :
    GreaderClient.authenticate (some "SID=s1\nLSID=l1") (some "tok")
        = .error (.authentication "Failed to authenticate with FreshRSS API")
    ∧ GreaderClient.authenticate (some "Auth=a1") (some "tok")
        = .error (.authentication "Failed to authenticate with FreshRSS API: Missing SID")
    ∧ GreaderClient.authenticate (some "Auth=a1\nSID=s1") (some "")
        = .error (.authentication "Failed to retrieve session token from FreshRSS API") :=
  ⟨(claim_C8_auth_error_stages (some "SID=s1\nLSID=l1") (some "tok")).1 (by rfl),
   (claim_C8_auth_error_stages (some "Auth=a1") (some "tok")).2.1 (by rfl) (by rfl),
   (claim_C8_auth_error_stages (some "Auth=a1\nSID=s1") (some "")).2.2.2
     (by rfl) (by rfl) (by rfl)⟩

/-- C6: getItemsFromIds on the empty list answers the empty list with
zero data calls; on a non-empty list it issues exactly
ceil(length / 50) calls, whose requested chunks are the consecutive
pieces of the input list in order: they concatenate back to the input,
each is at most 50 long, and every non-final one is exactly 50 long. -/
theorem claim_C6_empty_and_batching (ids : List Int) (server : List Int → List Item) :
    ((getItemsFromIds [] server).calls = []
      ∧ (getItemsFromIds [] server).result = .ok [])
    ∧ (ids ≠ [] →
        (getItemsFromIds ids server).calls = chunks50 ids
        ∧ (getItemsFromIds ids server).calls.length = (ids.length + 49) / 50
        ∧ ((getItemsFromIds ids server).calls).flatten = ids
        ∧ (∀ c ∈ (getItemsFromIds ids server).calls, c.length ≤ 50)
        ∧ (∀ c ∈ ((getItemsFromIds ids server).calls).dropLast, c.length = 50)) := by
  constructor
  · exact ⟨rfl, rfl⟩
  · intro hne
    have hcalls : (getItemsFromIds ids server).calls = chunks50 ids := by
      rw [getItemsFromIds_eq ids server hne]
      by_cases hlen : ((chunks50 ids).map server).flatten.length ≠ ids.length
      · rw [if_pos hlen]
      · rw [if_neg hlen]
    refine ⟨hcalls, ?_, ?_, ?_, ?_⟩ <;> rw [hcalls]
    · exact chunks50_length ids
    · exact chunks50_flatten ids
    · exact fun c hc => chunks50_mem_length_le ids c hc
    · exact chunks50_dropLast_length ids

/-- Witness for C6: 120 ids are requested in 3 chunk calls. -/
theorem claim_C6_witness :
    ((List.range 120).map Int.ofNat) ≠ []
    ∧ (getItemsFromIds ((List.range 120).map Int.ofNat)
        (fun c => c.map mkItem)).calls.length = 3 := by
  refine ⟨by decide, ?_⟩
  rw [((claim_C6_empty_and_batching ((List.range 120).map Int.ofNat)
    (fun c => c.map mkItem)).2 (by decide)).2.1]
  decide

/-- C3: for every non-empty id list, a normally returning
getItemsFromIds run answers exactly as many items as ids were requested
and the answer is sorted ascending by id; whenever the item count
accumulated over all batch calls differs from the requested count (too
few or too many), the run raises APIError. -/
theorem claim_C3_count_contract (ids : List Int) (server : List Int → List Item)
    (hne : ids ≠ []) :
    (∀ l, (getItemsFromIds ids server).result = .ok l →
        l.length = ids.length ∧ List.Pairwise (fun a b => a.id ≤ b.id) l)
    ∧ (((chunks50 ids).map server).flatten.length ≠ ids.length →
        (getItemsFromIds ids server).result
          = .error (.api "API returned a different number of items than requested. Some items may not exist or may not be accessible.")) := by
  constructor
  · intro l hl
    rw [getItemsFromIds_eq ids server hne] at hl
    by_cases hlen : ((chunks50 ids).map server).flatten.length ≠ ids.length
    · rw [if_pos hlen] at hl
      simp at hl
    · rw [if_neg hlen] at hl
      simp only [Except.ok.injEq] at hl
      rw [← hl]
      refine ⟨?_, sortById_sorted _⟩
      rw [sortById_length]
      omega
  · intro hlen
    rw [getItemsFromIds_eq ids server hne, if_pos hlen]

/-- Witness for C3: three echoed ids come back as three sorted items,
and a server answering nothing raises the APIError. -/
theorem claim_C3_witness :
    (([mkItem 1, mkItem 2, mkItem 3] : List Item).length = ([1, 2, 3] : List Int).length
      ∧ List.Pairwise (fun a b => a.id ≤ b.id) [mkItem 1, mkItem 2, mkItem 3])
    ∧ (getItemsFromIds [(1 : Int), 2, 3] (fun _ => [])).result
        = .error (.api "API returned a different number of items than requested. Some items may not exist or may not be accessible.") :=
  ⟨(claim_C3_count_contract [1, 2, 3] (fun c => c.map mkItem) (by decide)).1
      [mkItem 1, mkItem 2, mkItem 3] (by rfl),
   (claim_C3_count_contract [1, 2, 3] (fun _ => []) (by decide)).2 (by decide)⟩

/-- C2: in getItemsFromDates the accumulated result length equals the
seen-id-set size after every processed batch (the loop-state fold), so
a normally returning run has pairwise-distinct ids (a server-repeated
id appears exactly once and the result length equals the unique-id
count), the internal-consistency error is never reached from the
initial state, and a state that does violate the equality makes the
loop raise the consistency error instead of dropping it. -/
theorem claim_C2_dedup_invariant (sinceId untilId : Int) (script : List (List Item)) :
    (∀ msg, (getItemsFromDates sinceId untilId script).result
        ≠ .error (.consistency msg))
    ∧ (∀ l, (getItemsFromDates sinceId untilId script).result = .ok l →
        (l.map (fun x => x.id)).Nodup
        ∧ (l.map (fun x => x.id)).dedup.length = l.length)
    ∧ (∀ batches : List (List Item),
        (batches.foldl (stepBatch untilId) ⟨[], [], sinceId⟩).allItems.length
          = (batches.foldl (stepBatch untilId) ⟨[], [], sinceId⟩).seen.length)
    ∧ (∀ (st : LoopState) (b : List Item) (rest : List (List Item)),
        ¬ b.length = 0 → ¬ b.length < 50 →
        (stepBatch untilId st b).allItems.length ≠ (stepBatch untilId st b).seen.length →
        (datesLoop untilId (b :: rest) st).result
          = .error (.consistency "Duplicate item IDs detected in results! This should never happen.")) := by
  refine ⟨?_, ?_, ?_, ?_⟩
  · intro msg h
    by_cases hlt : sinceId < untilId
    · rw [show getItemsFromDates sinceId untilId script
          = datesLoop untilId script ⟨[], [], sinceId⟩ by
        simp [getItemsFromDates, hlt]] at h
      exact (datesLoop_run untilId script ⟨[], [], sinceId⟩ (Inv_init sinceId)
        (by intro x hx; simp at hx)).1 msg h
    · simp [getItemsFromDates, hlt] at h
  · intro l hl
    by_cases hlt : sinceId < untilId
    · rw [show getItemsFromDates sinceId untilId script
          = datesLoop untilId script ⟨[], [], sinceId⟩ by
        simp [getItemsFromDates, hlt]] at hl
      have h2 := (datesLoop_run untilId script ⟨[], [], sinceId⟩ (Inv_init sinceId)
        (by intro x hx; simp at hx)).2 l hl
      refine ⟨h2.1, ?_⟩
      rw [List.Nodup.dedup h2.1, List.length_map]
    · simp [getItemsFromDates, hlt] at hl
  · intro batches
    have h := foldl_stepBatch_inv untilId batches ⟨[], [], sinceId⟩ (Inv_init sinceId)
    rw [h.1, List.length_map]
  · intro st b rest h0 h50 hne
    simp [datesLoop, h0, h50, hne]

set_option maxRecDepth 8000 in
/-- Witness for C2: a second page repeating id 50 from the first page
leaves the id exactly once in the final result; a state with a
seen-mixin violating the count equality raises the consistency error. -/
theorem claim_C2_witness :
    ((getItemsFromDates 0 1000 [page50, [mkItem 50, mkItem 51]]).result
        = .ok ((List.range 51).map (fun n => mkItem (n + 1)))
      ∧ ((((List.range 51).map (fun n => mkItem (n + 1))).map (fun x => x.id)).Nodup
        ∧ ((((List.range 51).map (fun n => mkItem (n + 1))).map (fun x => x.id)).dedup.length
            = ((List.range 51).map (fun n => mkItem (n + 1))).length)))
    ∧ (datesLoop 1000 [page50] ⟨[], [99], 0⟩).result
        = .error (.consistency "Duplicate item IDs detected in results! This should never happen.") := by
  have h : (getItemsFromDates 0 1000 [page50, [mkItem 50, mkItem 51]]).result
      = .ok ((List.range 51).map (fun n => mkItem (n + 1))) := by rfl
  refine ⟨⟨h, (claim_C2_dedup_invariant 0 1000 [page50, [mkItem 50, mkItem 51]]).2.1 _ h⟩, ?_⟩
  exact (claim_C2_dedup_invariant 0 1000 [page50]).2.2.2 ⟨[], [99], 0⟩ page50 []
    (by decide) (by decide) (by decide)

/-- C4: the pagination loop stops, issuing no further data call, as
soon as a fetched batch is empty or shorter than 50, whatever the ids
in that final batch are: after any prefix of full 50-item pages
followed by one short page, the number of calls is the prefix length
plus one, and the remaining scripted batches are never requested. -/
theorem claim_C4_short_batch_stops (sinceId untilId : Int)
    (pre : List (List Item)) (b : List Item) (rest : List (List Item))
    (h : sinceId < untilId) (hpre : ∀ p ∈ pre, p.length = 50) (hb : b.length < 50) :
    (getItemsFromDates sinceId untilId (pre ++ b :: rest)).calls.length
      = pre.length + 1 := by
  rw [show getItemsFromDates sinceId untilId (pre ++ b :: rest)
      = datesLoop untilId (pre ++ b :: rest) ⟨[], [], sinceId⟩ by
    simp [getItemsFromDates, h]]
  exact datesLoop_stop untilId pre b rest ⟨[], [], sinceId⟩ (Inv_init sinceId) hpre hb

set_option maxRecDepth 8000 in
/-- Witness for C4: one full page of ids below until, then a one-item
page whose id is also below until, stop after two calls even though a
third batch is scripted. -/
theorem claim_C4_witness :
    (getItemsFromDates 0 1000 ([page50] ++ [mkItem 51] :: [[mkItem 52]])).calls.length = 2 := by
  have h := claim_C4_short_batch_stops 0 1000 [page50] [mkItem 51] [[mkItem 52]]
    (by decide) (by decide) (by decide)
  simpa using h

/-- C10: every item of a normally returning getItemsFromDates run has
id at most the until cursor; and no lower bound is enforced: a served
item whose id is at most until is accepted whatever its relation to the
since cursor, in particular one with id at most since appears in the
final result. -/
theorem claim_C10_upper_bound_only (sinceId untilId : Int) (h : sinceId < untilId) :
    (∀ (script : List (List Item)) (l : List Item),
        (getItemsFromDates sinceId untilId script).result = .ok l →
        ∀ x ∈ l, x.id ≤ untilId)
    ∧ (∀ it : Item, it.id ≤ untilId →
        (getItemsFromDates sinceId untilId [[it]]).result = .ok [it]) := by
  constructor
  · intro script l hl x hx
    rw [show getItemsFromDates sinceId untilId script
        = datesLoop untilId script ⟨[], [], sinceId⟩ by
      simp [getItemsFromDates, h]] at hl
    exact ((datesLoop_run untilId script ⟨[], [], sinceId⟩ (Inv_init sinceId)
      (by intro x hx; simp at hx)).2 l hl).2 x hx
  · intro it hile
    have hnot : ¬ untilId < it.id := not_lt.mpr hile
    simp [getItemsFromDates, h, datesLoop, stepBatch, procItems, hnot,
      sortById, insertById]

/-- Witness for C10: with since 5 and until 10, a served item with id 3
(at most since) is accepted and returned, and its id is at most 10. -/
theorem claim_C10_witness :
    (getItemsFromDates 5 10 [[mkItem 3]]).result = .ok [mkItem 3]
    ∧ (∀ x ∈ [mkItem 3], x.id ≤ 10) :=
  ⟨(claim_C10_upper_bound_only 5 10 (by decide)).2 (mkItem 3) (by decide),
   (claim_C10_upper_bound_only 5 10 (by decide)).1 [[mkItem 3]] [mkItem 3] (by rfl)⟩

set_option maxRecDepth 8000 in
/-- C1 counterexample: mixedPage has exactly 50 items and its maximum
observed id is 105 (an id excluded by until = 100), yet the second data
call is issued with since_id 45, the maximum accepted id, not 105 —
the loop body skips an item whose id exceeds until before the highestId
update, so excluded ids never advance the cursor. -/
theorem claim_C1_counterexample :
    mixedPage.length = 50
    ∧ (mixedPage.map (fun x => x.id)).foldl max 0 = 105
    ∧ (getItemsFromDates 0 100 [mixedPage]).calls = [0, 45]
    ∧ (45 : Int) ≠ 105 :=
  ⟨by decide, by decide, by decide, by decide⟩

/-- C1 amended: whenever a fetched batch contains exactly 50 items, the
loop issues at least one further data call, whose since_id cursor is
the maximum, over the previous cursor and the ids of the items newly
accepted from that batch, of the observed values — ids excluded by the
until bound (or as duplicates) do not advance the cursor. -/
theorem claim_C1_full_page_cursor (sinceId untilId : Int) (b : List Item)
    (rest : List (List Item)) (h : sinceId < untilId) (hb : b.length = 50) :
    ∃ t, (getItemsFromDates sinceId untilId (b :: rest)).calls
      = sinceId :: ((acceptedIds untilId b []).foldl max sinceId) :: t := by
  rw [show getItemsFromDates sinceId untilId (b :: rest)
      = datesLoop untilId (b :: rest) ⟨[], [], sinceId⟩ by
    simp [getItemsFromDates, h]]
  have h0 : ¬ b.length = 0 := by omega
  have h50 : ¬ b.length < 50 := by omega
  have hck := stepBatch_len untilId ⟨[], [], sinceId⟩ b (Inv_init sinceId)
  have hres : datesLoop untilId (b :: rest) ⟨[], [], sinceId⟩
      = { calls := sinceId ::
            (datesLoop untilId rest (stepBatch untilId ⟨[], [], sinceId⟩ b)).calls
          result := (datesLoop untilId rest (stepBatch untilId ⟨[], [], sinceId⟩ b)).result } := by
    simp [datesLoop, h0, h50, hck]
  rw [hres]
  obtain ⟨t, ht⟩ := datesLoop_calls_head untilId rest (stepBatch untilId ⟨[], [], sinceId⟩ b)
  refine ⟨t, ?_⟩
  rw [ht, stepBatch_cursor]

set_option maxRecDepth 8000 in
/-- Witness for C1 amended: on mixedPage with until 100 the second call
carries the fold of max over the accepted ids. -/
theorem claim_C1_witness :
    ∃ t, (getItemsFromDates 0 100 [mixedPage]).calls
      = 0 :: ((acceptedIds 100 mixedPage []).foldl max 0) :: t :=
  claim_C1_full_page_cursor 0 100 mixedPage [] (by decide) (by decide)

end FreshTs
